import Mathlib

/-!
A shallow embedding of the PiePay backend (`src/server.js`): offer
normalization (`createOfferId`, `parseOffersFromPayload`), the `POST /offer`
ingestion handler, and the `GET /highest-discount` selection handler.

Numeric values are modelled as rationals (`ℚ`); strings as Lean `String`
(ASCII case conversion, which agrees with JavaScript on the inputs that
occur here).  Fallible JavaScript evaluation (thrown errors caught by the
handlers' try/catch) is modelled with `Except Unit`.
-/

namespace PiePay

/-- The characters matched by the JavaScript regexp class `\s`
(whitespace and line terminators), by code point. -/
def isJsWhitespace (c : Char) : Bool :=
  c.toNat == 9 || c.toNat == 10 || c.toNat == 11 || c.toNat == 12 || c.toNat == 13
    || c.toNat == 32 || c.toNat == 160 || c.toNat == 5760
    || (8192 ≤ c.toNat && c.toNat ≤ 8202)
    || c.toNat == 8232 || c.toNat == 8233 || c.toNat == 8239 || c.toNat == 8287
    || c.toNat == 12288 || c.toNat == 65279

/-- `description.replace(/\s+/g, '').toLowerCase()` acting on the character
list: replacing every maximal whitespace run by the empty string removes
exactly the whitespace characters, and `toLowerCase` lower-cases each
remaining character. -/
def offerIdChars (cs : List Char) : List Char :=
  (cs.filter (fun c => !(isJsWhitespace c))).map Char.toLower

/-- `createOfferId` of `server.js`: the deduplication key of an offer,
computed from its description. -/
def createOfferId (description : String) : String :=
  String.mk (offerIdChars description.toList)

/-- A JavaScript scalar value, as far as the `description` field needs:
the code only distinguishes strings (which have a `.replace` method) from
every other value (on which `.replace` throws a TypeError). -/
inductive JsValue where
  | vstr (s : String)
  | vnum (q : ℚ)
  | vbool (b : Bool)
  | vnull
  | vundefined
deriving DecidableEq

/-- One entry of the payload's `offers` array.  The fields other than
`description` are carried through untouched by the code, so they are typed
at their expected types; `maxDiscount` is `none` when the field is absent,
`null` or `undefined` in the JSON. -/
structure RawOffer where
  description : JsValue
  bankName : String
  paymentInstrument : String
  discountType : String
  discountValue : ℚ
  maxDiscount : Option ℚ
  minTxnValue : ℚ
deriving DecidableEq

/-- A canonical offer record as built by `parseOffersFromPayload` and stored
in the `offers` table. -/
structure Offer where
  id : String
  description : String
  bankName : String
  paymentInstrument : String
  discountType : String
  discountValue : ℚ
  maxDiscount : Option ℚ
  minTxnValue : ℚ
deriving DecidableEq

/-- `rawOffer.maxDiscount || null`: a falsy numeric value (absent field,
`null`, or the number `0`) becomes `null`; any other number is kept. -/
def jsOrNull (v : Option ℚ) : Option ℚ :=
  match v with
  | none => none
  | some x => if x = 0 then none else some x

/-- The body of the `offers.map(...)` callback of `parseOffersFromPayload`.
`createOfferId` calls `description.replace`, which throws a TypeError
whenever `description` is not a string; the thrown error aborts the whole
`map` with no record produced. -/
def parseRawOffer (rawOffer : RawOffer) : Except Unit Offer :=
  match rawOffer.description with
  | .vstr s =>
      .ok { id := createOfferId s,
            description := s,
            bankName := rawOffer.bankName,
            paymentInstrument := rawOffer.paymentInstrument,
            discountType := rawOffer.discountType,
            discountValue := rawOffer.discountValue,
            maxDiscount := jsOrNull rawOffer.maxDiscount,
            minTxnValue := rawOffer.minTxnValue }
  | _ => .error ()

/-- The argument of `parseOffersFromPayload`: `offers` is `none` when the
field is missing or not an array (`!Array.isArray(...)`). -/
structure FlipkartApiResponse where
  offers : Option (List RawOffer)
deriving DecidableEq

/-- `parseOffersFromPayload` of `server.js`.  A falsy argument or a
missing/non-array `offers` field yields the empty list; otherwise each raw
entry is mapped, in order, to a canonical record. -/
def parseOffersFromPayload (flipkartApiResponse : Option FlipkartApiResponse) :
    Except Unit (List Offer) :=
  match flipkartApiResponse with
  | none => .ok []
  | some r =>
      match r.offers with
      | none => .ok []
      | some rawOffers => rawOffers.mapM parseRawOffer

/-- Whether the store already holds a row with the given id (the UNIQUE key
of the `offers` table). -/
def hasId (store : List Offer) (i : String) : Bool :=
  store.any (fun o => o.id == i)

/-- One row of the bulk `INSERT IGNORE`: a row whose id is already present
is skipped, otherwise it is inserted and counted in `affectedRows`. -/
def insertStep (acc : List Offer × Nat) (o : Offer) : List Offer × Nat :=
  if hasId acc.1 o.id then acc else (acc.1 ++ [o], acc.2 + 1)

/-- The bulk `INSERT IGNORE INTO offers ... VALUES ?` statement: rows are
processed in order against the growing table; the result is the new table
and `affectedRows`, the number of rows actually inserted. -/
def insertIgnore (store : List Offer) (rows : List Offer) : List Offer × Nat :=
  rows.foldl insertStep (store, 0)

/-- The JSON body of a `POST /offer` request, as far as the handler reads
it: the destructured `flipkartOfferApiResponse` field (`none` when the
field is absent or falsy). -/
structure PostBody where
  flipkartOfferApiResponse : Option FlipkartApiResponse
deriving DecidableEq

/-- The possible responses of the `POST /offer` handler. -/
inductive PostResponse where
  | created (noOfOffersIdentified noOfNewOffersCreated : Nat)
  | emptyOk
  | badRequest (msg : String)
  | serverError (msg : String)
deriving DecidableEq

/-- Identifier lookup in the `POST /offer` handler's scope.  The handler
destructures the binding `flipkartOfferApiResponse` from the body, but the
code then reads the identifier `flipkartApiResponse`, which is bound
nowhere in `server.js`; evaluating it raises a ReferenceError, modelled as
`.error`. -/
def handlerScope (body : PostBody) (ident : String) :
    Except Unit (Option FlipkartApiResponse) :=
  if ident == "flipkartOfferApiResponse" then .ok body.flipkartOfferApiResponse
  else .error ()

/-- The try-block of the `POST /offer` handler (`server.js` lines 45-73),
returning the response and the resulting store. -/
def postOfferBodyRun (body : PostBody) (store : List Offer) :
    Except Unit (PostResponse × List Offer) := do
  let flipkartApiResponse ← handlerScope body "flipkartApiResponse"
  if flipkartApiResponse.isNone then
    pure (.badRequest "Missing flipkartOfferApiResponse in request body.", store)
  else do
    let identifiedOffers ← parseOffersFromPayload flipkartApiResponse
    if identifiedOffers.length == 0 then
      pure (.emptyOk, store)
    else
      let r := insertIgnore store identifiedOffers
      pure (.created identifiedOffers.length r.2, r.1)

/-- The `POST /offer` handler: any error thrown in the try-block is caught
and answered with a 500 response, leaving the store untouched. -/
def postOfferHandler (body : PostBody) (store : List Offer) :
    PostResponse × List Offer :=
  match postOfferBodyRun body store with
  | .ok r => r
  | .error _ =>
      (.serverError "An internal server error occurred while saving offers.", store)

/-- `s.toUpperCase()` (ASCII range). -/
def jsToUpperCase (s : String) : String :=
  String.mk (s.toList.map Char.toUpper)

/-- The numeric value of a digit run, most significant first. -/
def digitsToNat (ds : List Char) : Nat :=
  ds.foldl (fun a c => a * 10 + (c.toNat - 48)) 0

/-- The optional exponent clause of `parseFloat`: a sign and a digit run
after `e`/`E`; when no digit follows, the clause is not consumed and
contributes exponent 0. -/
def expClause (t : List Char) : Int :=
  let p : Int × List Char :=
    match t with
    | '-' :: u => (-1, u)
    | '+' :: u => (1, u)
    | _ => (1, t)
  let eds := p.2.takeWhile Char.isDigit
  if eds.isEmpty then 0 else p.1 * (digitsToNat eds : Int)

/-- Ten to an integer power, as a rational. -/
def pow10 (e : Int) : ℚ :=
  match e with
  | .ofNat n => ((10 ^ n : Nat) : ℚ)
  | .negSucc n => 1 / ((10 ^ (n + 1) : Nat) : ℚ)

/-- JavaScript `parseFloat`: skip leading whitespace, read an optional
sign, an integer digit run, an optional fraction after `.`, and an
optional exponent; trailing characters are ignored.  `none` models `NaN`
(no digit could be read).  The non-finite `Infinity` form is outside the
rational model and not represented. -/
def jsParseFloat (s : String) : Option ℚ :=
  let cs0 := s.toList.dropWhile isJsWhitespace
  let p : ℚ × List Char :=
    match cs0 with
    | '-' :: t => (-1, t)
    | '+' :: t => (1, t)
    | _ => (1, cs0)
  let intPart := p.2.takeWhile Char.isDigit
  let cs2 := p.2.dropWhile Char.isDigit
  let q : List Char × List Char :=
    match cs2 with
    | '.' :: t => (t.takeWhile Char.isDigit, t.dropWhile Char.isDigit)
    | _ => ([], cs2)
  if intPart.isEmpty && q.1.isEmpty then none
  else
    let mantissa : ℚ :=
      p.1 * ((digitsToNat intPart : ℚ) + (digitsToNat q.1 : ℚ) / ((10 ^ q.1.length : Nat) : ℚ))
    let e : Int :=
      match q.2 with
      | 'e' :: t => expClause t
      | 'E' :: t => expClause t
      | _ => 0
    some (mantissa * pow10 e)

/-- The query string of a `GET /highest-discount` request; a parameter is
`none` when absent from the URL. -/
structure GetQuery where
  amountToPay : Option String
  bankName : Option String
  paymentInstrument : Option String
deriving DecidableEq

/-- JavaScript falsiness of a query-string value: absent (`undefined`) or
the empty string. -/
def strFalsy (v : Option String) : Bool :=
  match v with
  | none => true
  | some s => s == ""

/-- The possible responses of the `GET /highest-discount` handler. -/
inductive GetResponse where
  | ok (highestDiscountAmount : ℚ)
  | badRequest (msg : String)
deriving DecidableEq

/-- Whether a response is the 400 error response. -/
def GetResponse.isBadRequest : GetResponse → Bool
  | .badRequest _ => true
  | _ => false

/-- The per-offer discount computation of the `GET /highest-discount`
handler (`server.js` lines 110-119).  `offer.maxDiscount &&` is a falsy
test: a `null` or `0` cap is skipped, so the percentage discount is
returned uncapped. -/
def computeDiscount (offer : Offer) (parsedAmount : ℚ) : ℚ :=
  if offer.discountType = "FLAT" then offer.discountValue
  else if offer.discountType = "PERCENTAGE" then
    let currentDiscount := offer.discountValue / 100 * parsedAmount
    match offer.maxDiscount with
    | some m => if m ≠ 0 ∧ m < currentDiscount then m else currentDiscount
    | none => currentDiscount
  else 0

/-- The `forEach` accumulation of the handler: `highestDiscount` starts at
0 and is replaced whenever the current offer's discount exceeds it. -/
def highestDiscount (offers : List Offer) (parsedAmount : ℚ) : ℚ :=
  offers.foldl
    (fun highest offer =>
      let currentDiscount := computeDiscount offer parsedAmount
      if highest < currentDiscount then currentDiscount else highest)
    0

/-- `parseFloat(x.toFixed(2))` over the rational model: the nearest
multiple of 1/100, ties resolved toward the larger value. -/
def roundTo2 (x : ℚ) : ℚ :=
  (⌊x * 100 + 1 / 2⌋ : ℚ) / 100

/-- The `SELECT ... WHERE bankName = ? AND paymentInstrument = ? AND
minTxnValue <= ?` query, with both query-string values upper-cased as the
handler does. -/
def applicableOffersFor (store : List Offer) (bankName paymentInstrument : String)
    (parsedAmount : ℚ) : List Offer :=
  store.filter (fun o =>
    o.bankName == jsToUpperCase bankName
      && o.paymentInstrument == jsToUpperCase paymentInstrument
      && decide (o.minTxnValue ≤ parsedAmount))

/-- The selection stage of the handler (`server.js` lines 105-127): 0 for
an empty filtered set, otherwise the accumulated maximum rounded through
`toFixed(2)`. -/
def selectorResult (offers : List Offer) (parsedAmount : ℚ) : ℚ :=
  if offers.isEmpty then 0
  else roundTo2 (highestDiscount offers parsedAmount)

/-- The `GET /highest-discount` handler (`server.js` lines 81-133),
returning the response and the store (which it never mutates). -/
def getHighestDiscountHandler (store : List Offer) (q : GetQuery) :
    GetResponse × List Offer :=
  if strFalsy q.amountToPay || strFalsy q.bankName || strFalsy q.paymentInstrument then
    (.badRequest
      "Missing required query parameters: amountToPay, bankName, and paymentInstrument are required.",
      store)
  else
    match jsParseFloat (q.amountToPay.getD "") with
    | none => (.badRequest "Invalid amountToPay. Must be a number.", store)
    | some parsedAmount =>
        let applicableOffers :=
          applicableOffersFor store (q.bankName.getD "") (q.paymentInstrument.getD "")
            parsedAmount
        (.ok (selectorResult applicableOffers parsedAmount), store)

/-- The spec's scenario raw offer: one FLAT offer, bank AXIS, instrument
CREDIT, discountValue 100, minTxnValue 500. -/
def axisFlatRaw : RawOffer :=
  { description := .vstr "Flat Rs 100 off",
    bankName := "AXIS",
    paymentInstrument := "CREDIT",
    discountType := "FLAT",
    discountValue := 100,
    maxDiscount := none,
    minTxnValue := 500 }

/-- The canonical record `parseOffersFromPayload` produces for
`axisFlatRaw`. -/
def axisFlatOffer : Offer :=
  { id := "flatrs100off",
    description := "Flat Rs 100 off",
    bankName := "AXIS",
    paymentInstrument := "CREDIT",
    discountType := "FLAT",
    discountValue := 100,
    maxDiscount := none,
    minTxnValue := 500 }

/-- A PERCENTAGE offer with discountValue 10 and maxDiscount 50 (the
spec's capped-percentage scenario). -/
def pctCappedOffer : Offer :=
  { id := "10%off",
    description := "10% off",
    bankName := "AXIS",
    paymentInstrument := "CREDIT",
    discountType := "PERCENTAGE",
    discountValue := 10,
    maxDiscount := some 50,
    minTxnValue := 0 }

/-- A PERCENTAGE offer whose stored maxDiscount is the number 0. -/
def pctZeroCapOffer : Offer :=
  { id := "10%offzerocap",
    description := "10% off zero cap",
    bankName := "AXIS",
    paymentInstrument := "CREDIT",
    discountType := "PERCENTAGE",
    discountValue := 10,
    maxDiscount := some 0,
    minTxnValue := 0 }

example : parseOffersFromPayload (some { offers := some [axisFlatRaw] }) =
    .ok [axisFlatOffer] := rfl

example : createOfferId "5% off" = "5%off" := rfl

example : jsParseFloat "abc" = none := rfl

/-- Every offer record built by `parseRawOffer` has a `maxDiscount` that is
either absent or a non-zero number: the normalizer's `|| null` maps the
number 0 to `null` before storage. -/
theorem parseRawOffer_maxDiscount_ne_zero (r : RawOffer) (o : Offer)
    (h : parseRawOffer r = .ok o) : o.maxDiscount ≠ some 0 := by
  cases hd : r.description <;> rw [parseRawOffer, hd] at h
  case vstr s =>
    injection h with h
    subst h
    simp only [jsOrNull]
    cases hm : r.maxDiscount with
    | none => simp
    | some x => by_cases hx : x = 0 <;> simp [hx]
  all_goals cases h

/-- C1: the spec's scenario POST (one FLAT offer, bank AXIS, instrument
CREDIT, discountValue 100, minTxnValue 500) is claimed to answer 201 with
`{noOfOffersIdentified: 1, noOfNewOffersCreated: 1}`.  The code instead
evaluates the unbound identifier `flipkartApiResponse` (the body binds
`flipkartOfferApiResponse`), so the try/catch answers 500 and the store is
never touched. -/
theorem post_offer_scenario_returns_500 :
    postOfferHandler { flipkartOfferApiResponse := some { offers := some [axisFlatRaw] } } []
      = (.serverError "An internal server error occurred while saving offers.", []) := rfl

/-- C2: a POST body without the `flipkartOfferApiResponse` field is claimed
to answer 400; the code's ReferenceError on the misspelled identifier makes
it answer 500 instead (the store is still never touched). -/
theorem post_offer_missing_field_returns_500 :
    postOfferHandler { flipkartOfferApiResponse := none } []
      = (.serverError "An internal server error occurred while saving offers.", []) := rfl

/-- C3: for a PERCENTAGE offer (with the stored-offer invariant that
`maxDiscount` is never the number 0, which the normalizer guarantees), the
computed discount is `min(discountValue/100*amount, maxDiscount)` when a
cap is stored and `discountValue/100*amount` when none is. -/
theorem percentage_discount_matches_min (offer : Offer) (amount : ℚ)
    (hdt : offer.discountType = "PERCENTAGE")
    (hmax : offer.maxDiscount ≠ some 0) :
    computeDiscount offer amount =
      match offer.maxDiscount with
      | some m => min (offer.discountValue / 100 * amount) m
      | none => offer.discountValue / 100 * amount := by
  rw [computeDiscount, hdt, if_neg (by decide : ¬("PERCENTAGE" = ("FLAT" : String))),
    if_pos rfl]
  cases hmd : offer.maxDiscount with
  | none => rfl
  | some m =>
      have hm : m ≠ 0 := fun h => hmax (by rw [hmd, h])
      show (if m ≠ 0 ∧ m < offer.discountValue / 100 * amount then m
        else offer.discountValue / 100 * amount)
        = min (offer.discountValue / 100 * amount) m
      by_cases hlt : m < offer.discountValue / 100 * amount
      · rw [if_pos ⟨hm, hlt⟩, min_eq_right (le_of_lt hlt)]
      · rw [if_neg (fun hc => hlt hc.2), min_eq_left (le_of_not_lt hlt)]

/-- C3 witness: the spec's capped scenario — discountValue 10, maxDiscount
50, amount 1000 — computes the capped 50, not 100. -/
theorem percentage_discount_matches_min_witness :
    computeDiscount pctCappedOffer 1000 = 50 := by
  have h := percentage_discount_matches_min pctCappedOffer 1000 rfl
    (by simp [pctCappedOffer])
  rw [h]
  norm_num [pctCappedOffer]

/-- C5: a FLAT offer that passed the `minTxnValue ≤ amount` filter is worth
exactly its `discountValue`, whatever the amount. -/
theorem flat_discount_verbatim (offer : Offer) (amount : ℚ)
    (hdt : offer.discountType = "FLAT") (hmin : offer.minTxnValue ≤ amount) :
    computeDiscount offer amount = offer.discountValue := by
  rw [computeDiscount, if_pos hdt]

/-- C5 witness: the scenario FLAT offer (discountValue 100, minTxnValue
500) at amount 1000 is worth exactly 100. -/
theorem flat_discount_verbatim_witness :
    computeDiscount axisFlatOffer 1000 = 100 := by
  have h := flat_discount_verbatim axisFlatOffer 1000 rfl (by norm_num [axisFlatOffer])
  rw [h]
  rfl

/-- C9: the normalizer sends every falsy `maxDiscount` — `null`/absent and
the explicit number 0 alike — to the "absent" marker, and the selector's
`offer.maxDiscount &&` test treats a stored 0 (or `null`) as no cap at all,
so a 10% offer with `maxDiscount` 0 on an amount of 1000 is worth the
uncapped 100 rather than being capped at 0. -/
theorem maxdiscount_zero_is_no_cap :
    (∀ m : Option ℚ, (m = none ∨ m = some 0) → jsOrNull m = none)
    ∧ (∀ (offer : Offer) (amount : ℚ), offer.discountType = "PERCENTAGE" →
        (offer.maxDiscount = none ∨ offer.maxDiscount = some 0) →
        computeDiscount offer amount = offer.discountValue / 100 * amount)
    ∧ computeDiscount pctZeroCapOffer 1000 = 100 := by
  refine ⟨?_, ?_, ?_⟩
  · rintro m (rfl | rfl)
    · rfl
    · simp [jsOrNull]
  · intro offer amount hdt hmd
    rw [computeDiscount, hdt, if_neg (by decide : ¬("PERCENTAGE" = ("FLAT" : String))),
      if_pos rfl]
    rcases hmd with hmd | hmd <;> rw [hmd]
    show (if (0 : ℚ) ≠ 0 ∧ (0 : ℚ) < offer.discountValue / 100 * amount then (0 : ℚ)
      else offer.discountValue / 100 * amount) = offer.discountValue / 100 * amount
    exact if_neg (fun hc => hc.1 rfl)
  · rw [computeDiscount,
      if_neg (by decide : ¬(pctZeroCapOffer.discountType = "FLAT")),
      if_pos (by decide : pctZeroCapOffer.discountType = "PERCENTAGE")]
    show (if (0 : ℚ) ≠ 0 ∧ (0 : ℚ) < pctZeroCapOffer.discountValue / 100 * 1000
      then (0 : ℚ) else pctZeroCapOffer.discountValue / 100 * 1000) = 100
    rw [if_neg (fun hc => hc.1 rfl)]
    norm_num [pctZeroCapOffer]

/-- The accumulator of the `forEach` scan never decreases below its start. -/
theorem highestDiscount_le_of_init (offers : List Offer) (amount z : ℚ) :
    z ≤ offers.foldl
      (fun highest offer =>
        let currentDiscount := computeDiscount offer amount
        if highest < currentDiscount then currentDiscount else highest)
      z := by
  induction offers generalizing z with
  | nil => exact le_refl z
  | cons o t ih =>
      refine le_trans ?_ (ih _)
      by_cases hlt : z < computeDiscount o amount
      · exact le_of_lt (lt_of_lt_of_le hlt (le_of_eq (if_pos hlt).symm))
      · exact le_of_eq (if_neg hlt).symm

/-- Every scanned offer's discount is bounded by the scan's result. -/
theorem le_highestDiscount_of_mem (offers : List Offer) (amount z : ℚ)
    (o : Offer) (ho : o ∈ offers) :
    computeDiscount o amount ≤ offers.foldl
      (fun highest offer =>
        let currentDiscount := computeDiscount offer amount
        if highest < currentDiscount then currentDiscount else highest)
      z := by
  induction offers generalizing z with
  | nil => cases ho
  | cons o' t ih =>
      rcases List.mem_cons.mp ho with rfl | hmem
      · refine le_trans ?_ (highestDiscount_le_of_init t amount _)
        by_cases hlt : z < computeDiscount o amount
        · exact le_of_eq (if_pos hlt).symm
        · exact le_trans (le_of_not_lt hlt) (le_of_eq (if_neg hlt).symm)
      · exact ih _ hmem

/-- The scan's result is its start or one of the scanned discounts. -/
theorem highestDiscount_eq_init_or_mem (offers : List Offer) (amount z : ℚ) :
    offers.foldl
      (fun highest offer =>
        let currentDiscount := computeDiscount offer amount
        if highest < currentDiscount then currentDiscount else highest)
      z = z
    ∨ ∃ o ∈ offers, computeDiscount o amount = offers.foldl
      (fun highest offer =>
        let currentDiscount := computeDiscount offer amount
        if highest < currentDiscount then currentDiscount else highest)
      z := by
  induction offers generalizing z with
  | nil => exact Or.inl rfl
  | cons o t ih =>
      rcases ih (if z < computeDiscount o amount then computeDiscount o amount else z)
        with h | ⟨o', hm, he⟩
      · by_cases hlt : z < computeDiscount o amount
        · refine Or.inr ⟨o, List.mem_cons_self o t, ?_⟩
          rw [List.foldl_cons, h]
          exact (if_pos hlt).symm
        · refine Or.inl ?_
          rw [List.foldl_cons, h]
          exact if_neg hlt
      · exact Or.inr ⟨o', List.mem_cons_of_mem o hm, he⟩

/-- C4: the selection stage computes, for the filtered record set, the
maximum per-offer discount (an unrecognized `discountType` contributing 0
with no error), bounded below by 0 — so the default is 0 when the set is
empty or no discount is positive — and returns it rounded to two decimal
places. -/
theorem selector_max_and_rounding (offers : List Offer) (amount : ℚ) :
    (∀ o ∈ offers, computeDiscount o amount ≤ highestDiscount offers amount)
    ∧ (highestDiscount offers amount = 0
        ∨ ∃ o ∈ offers, computeDiscount o amount = highestDiscount offers amount)
    ∧ 0 ≤ highestDiscount offers amount
    ∧ selectorResult offers amount = roundTo2 (highestDiscount offers amount)
    ∧ (offers = [] → selectorResult offers amount = 0)
    ∧ (∀ o : Offer, o.discountType ≠ "FLAT" → o.discountType ≠ "PERCENTAGE" →
        computeDiscount o amount = 0) := by
  refine ⟨fun o ho => le_highestDiscount_of_mem offers amount 0 o ho,
    highestDiscount_eq_init_or_mem offers amount 0,
    highestDiscount_le_of_init offers amount 0, ?_, ?_, ?_⟩
  · cases offers with
    | nil =>
        show (0 : ℚ) = roundTo2 0
        rw [roundTo2]
        norm_num
    | cons o t => rfl
  · rintro rfl
    rfl
  · intro o h1 h2
    rw [computeDiscount, if_neg h1, if_neg h2]

/-- C6: `GET /highest-discount` answers 400 exactly when one of the three
query parameters is missing (or empty, which the falsy test also catches)
or `amountToPay` does not parse as a number; the handler never mutates the
store; and the scenario `amountToPay=abc` is answered with the 400
message. -/
theorem get_bad_request_iff (store : List Offer) (q : GetQuery) :
    ((getHighestDiscountHandler store q).1.isBadRequest = true
      ↔ (strFalsy q.amountToPay = true ∨ strFalsy q.bankName = true
          ∨ strFalsy q.paymentInstrument = true
          ∨ jsParseFloat (q.amountToPay.getD "") = none))
    ∧ (getHighestDiscountHandler store q).2 = store
    ∧ (getHighestDiscountHandler store
        { amountToPay := some "abc", bankName := some "AXIS",
          paymentInstrument := some "CREDIT" }).1
      = .badRequest "Invalid amountToPay. Must be a number." := by
  by_cases h1 :
      (strFalsy q.amountToPay || strFalsy q.bankName || strFalsy q.paymentInstrument) = true
  · rw [getHighestDiscountHandler, if_pos h1]
    simp only [Bool.or_eq_true] at h1
    refine ⟨?_, rfl, rfl⟩
    simp only [GetResponse.isBadRequest]
    exact ⟨fun _ => by tauto, fun _ => trivial⟩
  · rw [getHighestDiscountHandler, if_neg h1]
    simp only [Bool.or_eq_true, not_or, Bool.not_eq_true] at h1
    obtain ⟨⟨ha, hb⟩, hc⟩ := h1
    cases hp : jsParseFloat (q.amountToPay.getD "") with
    | none =>
        refine ⟨?_, rfl, rfl⟩
        simp [GetResponse.isBadRequest, hp]
    | some v =>
        refine ⟨?_, rfl, rfl⟩
        simp [GetResponse.isBadRequest, ha, hb, hc, hp]

/-- A row id present in the accumulated table stays present through the
rest of the bulk insert. -/
theorem hasId_foldl_insertStep_mono (rows : List Offer) (acc : List Offer × Nat)
    (i : String) (h : hasId acc.1 i = true) :
    hasId (rows.foldl insertStep acc).1 i = true := by
  induction rows generalizing acc with
  | nil => exact h
  | cons o t ih =>
      refine ih _ ?_
      rw [insertStep]
      by_cases hc : hasId acc.1 o.id = true
      · rw [if_pos hc]
        exact h
      · rw [if_neg hc]
        show hasId (acc.1 ++ [o]) i = true
        rw [hasId] at h ⊢
        simp [List.any_append, h]

/-- After the bulk insert, the id of every processed row is present. -/
theorem hasId_after_insert (rows : List Offer) (acc : List Offer × Nat)
    (o : Offer) (ho : o ∈ rows) :
    hasId (rows.foldl insertStep acc).1 o.id = true := by
  induction rows generalizing acc with
  | nil => cases ho
  | cons o' t ih =>
      rcases List.mem_cons.mp ho with rfl | hmem
      · refine hasId_foldl_insertStep_mono t _ o.id ?_
        rw [insertStep]
        by_cases hc : hasId acc.1 o.id = true
        · rw [if_pos hc]
          exact hc
        · rw [if_neg hc]
          show hasId (acc.1 ++ [o]) o.id = true
          simp [hasId, List.any_append]
      · exact ih _ hmem

/-- A bulk insert whose every row id is already present inserts nothing. -/
theorem insert_noop_of_all_present (rows : List Offer) (acc : List Offer × Nat)
    (h : ∀ o ∈ rows, hasId acc.1 o.id = true) :
    rows.foldl insertStep acc = acc := by
  induction rows generalizing acc with
  | nil => rfl
  | cons o t ih =>
      rw [List.foldl_cons, insertStep, if_pos (h o (List.mem_cons_self o t))]
      exact ih _ (fun o' ho' => h o' (List.mem_cons_of_mem o ho'))

/-- C7: ingestion is idempotent.  For any payload whose parse produced the
records `rs`, inserting `rs` again into the store left by the first
insertion creates 0 new rows (`affectedRows = 0`, hence
`noOfNewOffersCreated = 0`) and leaves the store unchanged. -/
theorem ingestion_idempotent (p : Option FlipkartApiResponse) (rs : List Offer)
    (store : List Offer) (hp : parseOffersFromPayload p = .ok rs) :
    (insertIgnore (insertIgnore store rs).1 rs).2 = 0
    ∧ (insertIgnore (insertIgnore store rs).1 rs).1 = (insertIgnore store rs).1 := by
  have hall : ∀ o ∈ rs, hasId (insertIgnore store rs).1 o.id = true :=
    fun o ho => hasId_after_insert rs (store, 0) o ho
  have hnoop :=
    insert_noop_of_all_present rs ((insertIgnore store rs).1, 0) (fun o ho => hall o ho)
  refine ⟨?_, ?_⟩
  · show (rs.foldl insertStep ((insertIgnore store rs).1, 0)).2 = 0
    rw [hnoop]
  · show (rs.foldl insertStep ((insertIgnore store rs).1, 0)).1 = (insertIgnore store rs).1
    rw [hnoop]

/-- C7 witness: ingesting the scenario payload into an empty store and then
ingesting it again creates 0 new rows the second time and leaves the store
as the first ingestion left it. -/
theorem ingestion_idempotent_witness :
    (insertIgnore (insertIgnore [] [axisFlatOffer]).1 [axisFlatOffer]).2 = 0
    ∧ (insertIgnore (insertIgnore [] [axisFlatOffer]).1 [axisFlatOffer]).1
      = (insertIgnore [] [axisFlatOffer]).1 :=
  ingestion_idempotent (some { offers := some [axisFlatRaw] }) [axisFlatOffer] [] rfl

/-- Dropping a whitespace head leaves the id characters unchanged. -/
theorem offerIdChars_cons_ws (c : Char) (l : List Char) (h : isJsWhitespace c = true) :
    offerIdChars (c :: l) = offerIdChars l := by
  simp [offerIdChars, List.filter_cons, h]

/-- A non-whitespace head contributes its lower-cased self. -/
theorem offerIdChars_cons_nws (c : Char) (l : List Char) (h : isJsWhitespace c = false) :
    offerIdChars (c :: l) = Char.toLower c :: offerIdChars l := by
  simp [offerIdChars, List.filter_cons, h]

/-- Two descriptions differ only in whitespace and letter case: whitespace
characters may be inserted on either side, and corresponding visible
characters agree up to case. -/
inductive WsCaseEquiv : List Char → List Char → Prop where
  | nil : WsCaseEquiv [] []
  | wsLeft (c : Char) (l r : List Char) :
      isJsWhitespace c = true → WsCaseEquiv l r → WsCaseEquiv (c :: l) r
  | wsRight (c : Char) (l r : List Char) :
      isJsWhitespace c = true → WsCaseEquiv l r → WsCaseEquiv l (c :: r)
  | cons (c1 c2 : Char) (l r : List Char) :
      isJsWhitespace c1 = false → isJsWhitespace c2 = false →
      Char.toLower c1 = Char.toLower c2 → WsCaseEquiv l r →
      WsCaseEquiv (c1 :: l) (c2 :: r)

/-- C8: the identity key is the description with all whitespace removed and
the remainder lower-cased, so any two descriptions that differ only in
whitespace and letter case get the same id. -/
theorem offer_id_ws_case_invariant (l1 l2 : List Char) (h : WsCaseEquiv l1 l2) :
    (∀ d : String, createOfferId d = String.mk (offerIdChars d.toList))
    ∧ createOfferId (String.mk l1) = createOfferId (String.mk l2) := by
  refine ⟨fun d => rfl, ?_⟩
  show String.mk (offerIdChars l1) = String.mk (offerIdChars l2)
  refine congrArg String.mk ?_
  induction h with
  | nil => rfl
  | wsLeft c l r hws _ ih => rw [offerIdChars_cons_ws c l hws, ih]
  | wsRight c l r hws _ ih => rw [offerIdChars_cons_ws c r hws, ih]
  | cons c1 c2 l r h1 h2 hlow _ ih =>
      rw [offerIdChars_cons_nws _ _ h1, offerIdChars_cons_nws _ _ h2, hlow, ih]

/-- C8 witness: `"5% off"` and `" 5%   OFF "` get the same id, and the id
of `"5% off"` is `"5%off"`. -/
theorem offer_id_ws_case_invariant_witness :
    createOfferId (String.mk ['5', '%', ' ', 'o', 'f', 'f'])
      = createOfferId (String.mk [' ', '5', '%', ' ', ' ', ' ', 'O', 'F', 'F', ' '])
    ∧ String.mk ['5', '%', ' ', 'o', 'f', 'f'] = "5% off"
    ∧ String.mk [' ', '5', '%', ' ', ' ', ' ', 'O', 'F', 'F', ' '] = " 5%   OFF "
    ∧ createOfferId "5% off" = "5%off" := by
  refine ⟨(offer_id_ws_case_invariant _ _ ?_).2, rfl, rfl, rfl⟩
  refine .wsRight ' ' _ _ (by decide) ?_
  refine .cons '5' '5' _ _ (by decide) (by decide) rfl ?_
  refine .cons '%' '%' _ _ (by decide) (by decide) rfl ?_
  refine .wsLeft ' ' _ _ (by decide) ?_
  refine .wsRight ' ' _ _ (by decide) ?_
  refine .wsRight ' ' _ _ (by decide) ?_
  refine .wsRight ' ' _ _ (by decide) ?_
  refine .cons 'o' 'O' _ _ (by decide) (by decide) (by decide) ?_
  refine .cons 'f' 'F' _ _ (by decide) (by decide) (by decide) ?_
  refine .cons 'f' 'F' _ _ (by decide) (by decide) (by decide) ?_
  refine .wsRight ' ' _ _ (by decide) ?_
  exact .nil

/-- Whether a raw entry's `description` is a string (the only values whose
`.replace` call does not throw). -/
def descriptionIsString (r : RawOffer) : Bool :=
  match r.description with
  | .vstr _ => true
  | _ => false

/-- When every description is a string, the map over the entries succeeds
with one record per entry, in order. -/
theorem mapM_parse_ok (rawOffers : List RawOffer)
    (hall : ∀ r ∈ rawOffers, descriptionIsString r = true) :
    ∃ recs : List Offer, rawOffers.mapM parseRawOffer = .ok recs
      ∧ List.Forall₂ (fun r o => parseRawOffer r = Except.ok o) rawOffers recs := by
  induction rawOffers with
  | nil => exact ⟨[], rfl, List.Forall₂.nil⟩
  | cons r t ih =>
      obtain ⟨recs, hrecs, hfa⟩ := ih (fun r' h => hall r' (List.mem_cons_of_mem r h))
      have hr := hall r (List.mem_cons_self r t)
      obtain ⟨o, ho⟩ : ∃ o, parseRawOffer r = .ok o := by
        rw [parseRawOffer]
        cases hd : r.description
        case vstr s => exact ⟨_, rfl⟩
        all_goals rw [descriptionIsString, hd] at hr
        all_goals cases hr
      refine ⟨o :: recs, ?_, List.Forall₂.cons ho hfa⟩
      rw [List.mapM_cons, ho, hrecs]
      rfl

/-- When some description is not a string, the map over the entries throws
and no record survives. -/
theorem mapM_parse_error (rawOffers : List RawOffer)
    (hbad : ∃ r ∈ rawOffers, descriptionIsString r = false) :
    rawOffers.mapM parseRawOffer = .error () := by
  induction rawOffers with
  | nil =>
      obtain ⟨r, hr, _⟩ := hbad
      cases hr
  | cons r t ih =>
      obtain ⟨r', hr', hbadr⟩ := hbad
      rw [List.mapM_cons]
      rcases List.mem_cons.mp hr' with rfl | hmem
      · have herr : parseRawOffer r' = .error () := by
          rw [parseRawOffer]
          cases hd : r'.description
          case vstr s =>
            rw [descriptionIsString, hd] at hbadr
            cases hbadr
          all_goals rfl
        rw [herr]
        rfl
      · cases hpr : parseRawOffer r with
        | error e => rfl
        | ok o =>
            rw [ih ⟨r', hmem, hbadr⟩]
            rfl

/-- C10: `parseOffersFromPayload` is total exactly on payloads whose every
entry has a string description — there it returns one canonical record per
entry in payload order — and throws whenever some entry's description is
missing or not a string, in which case no record is produced and the
endpoint answers 500 with the store untouched. -/
theorem parse_total_iff_string_descriptions :
    (∀ rawOffers : List RawOffer, (∀ r ∈ rawOffers, descriptionIsString r = true) →
      ∃ recs : List Offer,
        parseOffersFromPayload (some { offers := some rawOffers }) = .ok recs
        ∧ recs.length = rawOffers.length
        ∧ List.Forall₂ (fun r o => parseRawOffer r = Except.ok o) rawOffers recs)
    ∧ (∀ rawOffers : List RawOffer, (∃ r ∈ rawOffers, descriptionIsString r = false) →
      parseOffersFromPayload (some { offers := some rawOffers }) = .error ())
    ∧ (∀ (rawOffers : List RawOffer) (store : List Offer),
        (∃ r ∈ rawOffers, descriptionIsString r = false) →
        postOfferHandler { flipkartOfferApiResponse := some { offers := some rawOffers } }
          store
          = (.serverError "An internal server error occurred while saving offers.",
            store)) := by
  refine ⟨?_, ?_, ?_⟩
  · intro rawOffers hall
    obtain ⟨recs, hrecs, hfa⟩ := mapM_parse_ok rawOffers hall
    exact ⟨recs, hrecs, (List.Forall₂.length_eq hfa).symm, hfa⟩
  · intro rawOffers hbad
    exact mapM_parse_error rawOffers hbad
  · intro rawOffers store hbad
    rfl

end PiePay
